import Mathlib

/-!
# Verification of the snapimg image-compression front end and batch core

Shallow embedding of the batch-compression logic of the snapimg repository:
the upload boundary (`src/components/UploadZone.tsx`), the sequential batch
loop with per-item progress (`src/App.tsx`, `handleFilesSelected`,
`startProgress`), and the aggregate ratio computation (`src/App.tsx`,
`totalRatio`).  The FastAPI backend (`serve/app/core/compressor.py`) is not
part of the checked-in sources; the parts of it that claims depend on are
modelled from the specification and marked as such in their doc comments.
-/

namespace SnapImg

/-- A browser `File` as the front end sees it: name, byte size, MIME type. -/
structure JsFile where
  name : String
  size : Nat
  mime : String
deriving Repr, DecidableEq

/-- `type FileStatus = 'pending' | 'compressing' | 'done' | 'error'` (App.tsx). -/
inductive FileStatus where
  | pending
  | compressing
  | done
  | error
deriving Repr, DecidableEq

/-- The `CompressResult` payload of `lib/api` as used by App.tsx and documented
in the README (`POST /api/compress/single` response): filename, sizes, ratio
percent, base64 data URI, success flag, optional error, format tag.
`compression_ratio` is modelled as an integer percent (the UI renders it with
`toFixed(0)`). -/
structure CompressResult where
  filename : String
  original_size : Nat
  compressed_size : Nat
  compression_ratio : Int
  data : String
  success : Bool
  error : Option String
  format : String
deriving Repr, DecidableEq

/-- `interface FileItem` of App.tsx (the `originalUrl` object-URL field is
presentation-only and carried as the file name here; the id's timestamp/random
suffix is irrelevant to every claim and is dropped).  Progress is a rational:
the source stores a JS number evolving by `(90 - p) / 10` steps. -/
structure FileItem where
  id : String
  file : JsFile
  status : FileStatus
  progress : ℚ
  result : Option CompressResult
deriving DecidableEq

/-! ## Upload boundary: `src/components/UploadZone.tsx` -/

/-- `const MAX_FILE_SIZE = 10 * 1024 * 1024` (UploadZone.tsx). -/
def MAX_FILE_SIZE : Nat := 10 * 1024 * 1024

/-- `const MAX_FILES = 20` (UploadZone.tsx). -/
def MAX_FILES : Nat := 20

/-- The keys of `ACCEPTED_TYPES` (UploadZone.tsx): the MIME types configured
for the dropzone. -/
def ACCEPTED_TYPES : List String := ["image/png", "image/jpeg", "image/webp"]

/-- The flattened extension lists of `ACCEPTED_TYPES` (UploadZone.tsx):
`['.png'], ['.jpg', '.jpeg'], ['.webp']`. -/
def ACCEPTED_EXTS : List String := [".png", ".jpg", ".jpeg", ".webp"]

/-- react-dropzone's attr-accept name check for an accept entry starting with
a dot: the lowercased file name ends with the (already lowercase)
extension. -/
def extMatches (ext name : String) : Bool :=
  ext.data.isSuffixOf (name.data.map Char.toLower)

/-- A file passes the dropzone's per-file filter when its MIME type equals one
of the accept keys OR its lowercased name ends with one of the configured
extensions (react-dropzone's attr-accept ORs the flattened accept entries),
and its size does not exceed `MAX_FILE_SIZE` (react-dropzone accepts
`size <= maxSize`). -/
def filePasses (f : JsFile) : Bool :=
  (decide (f.mime ∈ ACCEPTED_TYPES) ||
    ACCEPTED_EXTS.any (fun e => extMatches e f.name)) &&
  decide (f.size ≤ MAX_FILE_SIZE)

/-- react-dropzone semantics for the UploadZone configuration
(`accept: ACCEPTED_TYPES, maxSize: MAX_FILE_SIZE, maxFiles: MAX_FILES`):
files failing the per-file filter are rejected; if more files pass the filter
than `maxFiles`, every file is rejected (too-many-files), so the accepted list
is empty. -/
def dropzoneAccepted (files : List JsFile) : List JsFile :=
  if MAX_FILES < (files.filter filePasses).length then []
  else files.filter filePasses

/-- `onDrop` of UploadZone.tsx: `onFilesSelected` is invoked only when
`acceptedFiles.length > 0`; `none` models "the handler is not called". -/
def uploadZoneSelect (files : List JsFile) : Option (List JsFile) :=
  if (dropzoneAccepted files).length = 0 then none
  else some (dropzoneAccepted files)

/-! ## The batch loop: `src/App.tsx`, `handleFilesSelected` -/

/-- The observable outcome of one `await compressSingleImage(file, format)`
call: the promise either resolves with a `CompressResult` payload or rejects;
a rejection carries `some msg` when the thrown value is an `Error` (so
`error.message` is available) and `none` otherwise. -/
inductive Outcome where
  | ok (r : CompressResult)
  | thrown (msg : Option String)
deriving DecidableEq

/-- A fresh `FileItem` as built at the top of `handleFilesSelected`:
`status: 'pending', progress: 0`, no result yet. -/
def mkFileItem (f : JsFile) : FileItem :=
  { id := f.name, file := f, status := .pending, progress := 0, result := none }

/-- The completion update of the loop body (App.tsx lines 127-141): on a
resolved result, `status: result.success ? 'done' : 'error', progress: 100,
result`; on a rejection, `status: 'error', progress: 100` with a synthesized
failure result (`compressed_size: 0, compression_ratio: 0, success: false`,
`error` from `error.message` or the fallback text). -/
def completeItem (item : FileItem) (out : Outcome) : FileItem :=
  match out with
  | .ok r =>
      { item with status := if r.success then .done else .error,
                  progress := 100, result := some r }
  | .thrown msg =>
      { item with status := .error, progress := 100,
                  result := some
                    { filename := item.file.name
                      original_size := item.file.size
                      compressed_size := 0
                      compression_ratio := 0
                      data := ""
                      success := false
                      error := some (msg.getD "压缩失败")
                      format := "" } }

/-- Functional update at one index: the meaning of
`prev.map((f, idx) => idx === i ? g(f) : f)` used by every `setFiles` call in
the loop. -/
def modifyIdx : List FileItem → Nat → (FileItem → FileItem) → List FileItem
  | [], _, _ => []
  | x :: xs, 0, g => g x :: xs
  | x :: xs, i + 1, g => x :: modifyIdx xs i g

/-- The `{ ...f, status: 'compressing', progress: 0 }` update at the top of
each loop iteration. -/
def setCompressing (f : FileItem) : FileItem :=
  { f with status := .compressing, progress := 0 }

/-- One progress signal observed by the caller of the batch loop, i.e. one
`setFiles` emission: either "item i started compressing" or "item i completed
with this status at this progress value". -/
inductive Event where
  | started (i : Nat)
  | completed (i : Nat) (st : FileStatus) (progress : ℚ)
deriving DecidableEq

/-- The item index an event talks about. -/
def Event.idx : Event → Nat
  | .started i => i
  | .completed i _ _ => i

/-- The status the completion update assigns for a given outcome
(`result.success ? 'done' : 'error'`; rejection gives `'error'`). -/
def outcomeStatus : Outcome → FileStatus
  | .ok r => if r.success then .done else .error
  | .thrown _ => .error

/-- The `for` loop of `handleFilesSelected`, instrumented with the stream of
`setFiles` emissions: iteration `i` first marks item `i` compressing, then
awaits its outcome and writes the completion update (progress 100) before the
next iteration begins.  Returns the emitted events and the final state. -/
def batchLoop : List FileItem → List Outcome → Nat → List Event × List FileItem
  | state, [], _ => ([], state)
  | state, o :: rest, i =>
      let s1 := modifyIdx state i setCompressing
      let s2 := modifyIdx s1 i (fun f => completeItem f o)
      let (evs, final) := batchLoop s2 rest (i + 1)
      (.started i :: .completed i (outcomeStatus o) 100 :: evs, final)

/-- `handleFilesSelected`: build the fresh items, then run the sequential
loop over the outcomes of the per-file `compressSingleImage` calls; the final
`files` state. -/
def handleFilesSelected (selected : List JsFile) (outs : List Outcome) :
    List FileItem :=
  (batchLoop (selected.map mkFileItem) outs 0).2

/-- The stream of per-item progress signals emitted during one
`handleFilesSelected` run. -/
def batchEvents (selected : List JsFile) (outs : List Outcome) : List Event :=
  (batchLoop (selected.map mkFileItem) outs 0).1

/-! ## Aggregate statistics: `src/App.tsx` lines 193-198 -/

/-- `totalOriginal = files.reduce((sum, f) => sum + f.file.size, 0)`. -/
def totalOriginal (files : List FileItem) : Nat :=
  files.foldl (fun sum f => sum + f.file.size) 0

/-- `totalCompressed = files.reduce((sum, f) => sum + (f.result?.compressed_size || 0), 0)`. -/
def totalCompressed (files : List FileItem) : Nat :=
  files.foldl (fun sum f => sum + ((f.result.map (·.compressed_size)).getD 0)) 0

/-- `totalRatio = totalOriginal > 0 ? (1 - totalCompressed / totalOriginal) * 100 : 0`. -/
def totalRatio (files : List FileItem) : ℚ :=
  if 0 < totalOriginal files then
    (1 - (totalCompressed files : ℚ) / (totalOriginal files : ℚ)) * 100
  else 0

/-! ## Simulated progress: `src/App.tsx`, `startProgress` -/

/-- One tick of the interval installed by `startProgress(id)`: for the item
with this id, while `status === 'compressing' && progress < 90`, add
`Math.max(1, (90 - progress) / 10)` capped by `Math.min(90, ...)`; every other
item (and every other state) is left unchanged. -/
def tickItem (id : String) (f : FileItem) : FileItem :=
  if f.id = id ∧ f.status = .compressing ∧ f.progress < 90 then
    { f with progress := min 90 (f.progress + max 1 ((90 - f.progress) / 10)) }
  else f

/-- The updates a single `FileItem` can undergo in App.tsx: a progress-timer
tick, the `'compressing', progress: 0` update at the top of a loop iteration,
or the completion update. -/
inductive ItemStep : FileItem → FileItem → Prop where
  | tick (id : String) (f : FileItem) : ItemStep f (tickItem id f)
  | start (f : FileItem) : ItemStep f (setCompressing f)
  | complete (f : FileItem) (o : Outcome) : ItemStep f (completeItem f o)

/-- States of one item reachable from its creation (`'pending', progress: 0`)
through the updates App.tsx performs. -/
inductive ReachableItem : FileItem → Prop where
  | init (jf : JsFile) : ReachableItem (mkFileItem jf)
  | step {f f' : FileItem} : ReachableItem f → ItemStep f f' → ReachableItem f'

/-! ## Spec-modelled backend

The compression core (`serve/app/core/compressor.py`, `serve/app/api/`) is not
among the checked-in sources — only its frontend caller, the README API
description and the changelog are.  The definitions below are modelled from
the specification and carry a `Modelled from the spec:` doc comment. -/

/-- Modelled from the spec: the `compression_ratio_percent` computation of the
missing backend orchestrator (spec §3 invariant, §4.2 step 7, §8 boundary
scenario): `round(100 * (1 - compressed/original))`, with the division-by-zero
guard `original == 0 → ratio = 0`.  Rounded to an integer percent, matching
the README example and the UI's `toFixed(0)` rendering. -/
def compressionRatioPercent (original compressed : Nat) : Int :=
  if original = 0 then 0
  else round ((100 : ℚ) * (1 - (compressed : ℚ) / (original : ℚ)))

/-- Modelled from the spec: the observable outcome of the missing backend
engine for one request — a successful encode producing the output bytes and
resolved format tag, or a decode/encode failure with a message (spec §4.2
error taxonomy). -/
inductive EngineOutcome where
  | encoded (bytes : List Nat) (fmt : String)
  | decodeError (msg : String)
  | encodeError (msg : String)
deriving DecidableEq

/-- Modelled from the spec: the missing backend `compress` operation
(spec §4.2): it never throws; a successful encode yields
`success = true` with measured `compressed_size = len(bytes)` and the ratio
invariant; every failure is captured into a result with `success = false`,
`compressed_size = 0` and the message in `error`. -/
def orchestratorCompress (name : String) (inputSize : Nat)
    (eng : EngineOutcome) : CompressResult :=
  match eng with
  | .encoded bytes fmt =>
      { filename := name
        original_size := inputSize
        compressed_size := bytes.length
        compression_ratio := compressionRatioPercent inputSize bytes.length
        data := "data:image/" ++ fmt ++ ";base64"
        success := true
        error := none
        format := fmt }
  | .decodeError msg =>
      { filename := name, original_size := inputSize, compressed_size := 0
        compression_ratio := 0, data := "", success := false
        error := some msg, format := "" }
  | .encodeError msg =>
      { filename := name, original_size := inputSize, compressed_size := 0
        compression_ratio := 0, data := "", success := false
        error := some msg, format := "" }

/-- Modelled from the spec: the missing `LosslessPostOptimizer` guard
(spec §4.4): `rawOpt` is the underlying optional optimizer (`none` models
"library unavailable or errored": no-op passthrough); when it does produce
output, that output is kept only if strictly smaller than the input,
otherwise the input bytes are kept. -/
def losslessPostOptimize (rawOpt : List Nat → Option (List Nat))
    (input : List Nat) : List Nat :=
  match rawOpt input with
  | none => input
  | some out => if input.length ≤ out.length then input else out

/-- An indexed image produced by quantization: pixel indices plus a palette of
RGB triples (abstract; enough to model backend plumbing). -/
structure IndexedImage where
  indices : List Nat
  palette : List (Nat × Nat × Nat)
deriving DecidableEq

/-- A decoded raster image as a list of RGB pixels (abstract). -/
def RasterImage := List (Nat × Nat × Nat)

/-- Modelled from the spec: the two quantization backends (spec §4.3):
the primary (imagequant) may be unavailable or fail at runtime (`none`);
the fallback (Pillow octree/median-cut) is guaranteed available and total. -/
structure QuantEnv where
  primary : RasterImage → Nat → Option IndexedImage
  fallback : RasterImage → Nat → IndexedImage

/-- Modelled from the spec: backend selection policy (spec §4.3, changelog
"try/except import, fall back to Pillow"): attempt the primary quantizer; on
any failure use the fallback. -/
def quantize (env : QuantEnv) (img : RasterImage) (maxColors : Nat) :
    IndexedImage :=
  match env.primary img maxColors with
  | some r => r
  | none => env.fallback img maxColors

/-- Modelled from the spec: the palette-raster path of the missing backend
`compress` (spec §4.2 step 4): quantize (with fallback), encode, assemble a
`success = true` result — a quantization-backend failure never surfaces as an
error. -/
def compressPalette (env : QuantEnv) (name : String) (inputSize : Nat)
    (img : RasterImage) (maxColors : Nat)
    (encode : IndexedImage → List Nat) : CompressResult :=
  orchestratorCompress name inputSize
    (.encoded (encode (quantize env img maxColors)) "png")

/-! ## Lemmas about the batch loop -/

theorem modifyIdx_length (l : List FileItem) (i : Nat) (g : FileItem → FileItem) :
    (modifyIdx l i g).length = l.length := by
  induction l generalizing i with
  | nil => rfl
  | cons x xs ih =>
    cases i with
    | zero => rfl
    | succ i => simpa [modifyIdx] using ih i

theorem getElem?_modifyIdx_self (l : List FileItem) (i : Nat)
    (g : FileItem → FileItem) : (modifyIdx l i g)[i]? = (l[i]?).map g := by
  induction l generalizing i with
  | nil => simp [modifyIdx]
  | cons x xs ih =>
    cases i with
    | zero => simp [modifyIdx]
    | succ i => simpa [modifyIdx] using ih i

theorem getElem?_modifyIdx_ne (l : List FileItem) (i j : Nat)
    (g : FileItem → FileItem) (h : j ≠ i) :
    (modifyIdx l i g)[j]? = l[j]? := by
  induction l generalizing i j with
  | nil => simp [modifyIdx]
  | cons x xs ih =>
    cases i with
    | zero =>
      cases j with
      | zero => exact absurd rfl h
      | succ j => simp [modifyIdx]
    | succ i =>
      cases j with
      | zero => simp [modifyIdx]
      | succ j => simpa [modifyIdx] using ih i j (by omega)

theorem completeItem_setCompressing (f : FileItem) (o : Outcome) :
    completeItem (setCompressing f) o = completeItem f o := by
  cases o <;> rfl

theorem batchLoop_snd_length (outs : List Outcome) (s : List FileItem) (i : Nat) :
    ((batchLoop s outs i).2).length = s.length := by
  induction outs generalizing s i with
  | nil => rfl
  | cons o rest ih =>
    simp only [batchLoop]
    rw [ih, modifyIdx_length, modifyIdx_length]

theorem batchLoop_snd_getElem_lt (outs : List Outcome) (s : List FileItem)
    (i j : Nat) (h : j < i) : ((batchLoop s outs i).2)[j]? = s[j]? := by
  induction outs generalizing s i with
  | nil => rfl
  | cons o rest ih =>
    simp only [batchLoop]
    rw [ih _ (i + 1) (by omega), getElem?_modifyIdx_ne _ _ _ _ (by omega),
      getElem?_modifyIdx_ne _ _ _ _ (by omega)]

theorem batchLoop_snd_getElem (outs : List Outcome) (s : List FileItem)
    (i j : Nat) (h₁ : i ≤ j) (h₂ : j < i + outs.length) :
    ((batchLoop s outs i).2)[j]? =
      Option.map₂ completeItem s[j]? outs[j - i]? := by
  induction outs generalizing s i with
  | nil => simp only [List.length_nil] at h₂; omega
  | cons o rest ih =>
    simp only [batchLoop]
    rcases Nat.eq_or_lt_of_le h₁ with heq | hlt
    · subst heq
      rw [batchLoop_snd_getElem_lt _ _ _ _ (by omega),
        getElem?_modifyIdx_self, getElem?_modifyIdx_self]
      simp only [Nat.sub_self, List.getElem?_cons_zero, Option.map_map]
      cases s[i]? with
      | none => rfl
      | some f =>
        simp [Option.map₂, completeItem_setCompressing, Function.comp]
    · rw [ih _ (i + 1) (by omega) (by simp at h₂ ⊢; omega),
        getElem?_modifyIdx_ne _ _ _ _ (by omega),
        getElem?_modifyIdx_ne _ _ _ _ (by omega)]
      have hidx : j - i = (j - (i + 1)) + 1 := by omega
      rw [hidx, List.getElem?_cons_succ]

/-- C1: Batch processing is length- and order-preserving and failure-isolating:
for every ordered sequence of at most 20 compression requests (with one
observed transport outcome per request), the batch produces a state with
exactly one item per request, and the item at index `j` is exactly the
completion of request `j` with outcome `j` — so one request's failure cannot
abort, remove, or reorder any other request's result. -/
theorem batch_length_order_isolation (reqs : List JsFile) (outs : List Outcome)
    (hlen : outs.length = reqs.length) (_hcap : reqs.length ≤ 20) :
    (handleFilesSelected reqs outs).length = reqs.length ∧
    ∀ (j : Nat) (f : JsFile) (o : Outcome), reqs[j]? = some f → outs[j]? = some o →
      (handleFilesSelected reqs outs)[j]? = some (completeItem (mkFileItem f) o) := by
  constructor
  · rw [handleFilesSelected, batchLoop_snd_length, List.length_map]
  · intro j f o hf ho
    have hj : j < outs.length := by
      by_contra hcon
      rw [List.getElem?_eq_none (by omega)] at ho
      exact Option.noConfusion ho
    rw [handleFilesSelected,
      batchLoop_snd_getElem outs _ 0 j (Nat.zero_le j) (by omega)]
    simp [hf, ho, Option.map₂]

/-- Witness for C1 at a concrete three-element batch whose middle request
fails (a corrupted input between two valid ones): the result at index 2 is
the untouched success completion of request 2. -/
theorem batch_length_order_isolation_witness :
    (handleFilesSelected
        [⟨"a.png", 100, "image/png"⟩, ⟨"b.png", 50, "image/png"⟩,
         ⟨"c.png", 70, "image/png"⟩]
        [.ok ⟨"a.png", 100, 40, 60, "data:image/png;base64", true, none, "png"⟩,
         .thrown (some "decode failed"),
         .ok ⟨"c.png", 70, 35, 50, "data:image/png;base64", true, none, "png"⟩])[2]? =
      some (completeItem (mkFileItem ⟨"c.png", 70, "image/png"⟩)
        (.ok ⟨"c.png", 70, 35, 50, "data:image/png;base64", true, none, "png"⟩)) :=
  (batch_length_order_isolation _ _ (by decide) (by decide)).2 2 _ _
    (by decide) (by decide)

/-- C2: the compress operation never throws past its boundary: every backend
failure mode (decode error, encode error) yields a returned result with
`success = false`, `compressed_size = 0` and an error message, the batch
loop's catch converts a transport rejection into the same shape, and every
outcome — resolved or thrown — leaves the item with a stored result, so no
exception escapes the batch loop. -/
theorem compress_never_escapes (name : String) (size : Nat)
    (eng : EngineOutcome) (item : FileItem) (m : Option String) (out : Outcome) :
    ((orchestratorCompress name size eng).success = false →
      (orchestratorCompress name size eng).compressed_size = 0 ∧
      (orchestratorCompress name size eng).error.isSome = true) ∧
    (∀ r : CompressResult, (completeItem item (.thrown m)).result = some r →
      r.success = false ∧ r.compressed_size = 0 ∧ r.error.isSome = true) ∧
    ((completeItem item out).result).isSome = true := by
  refine ⟨?_, ?_, ?_⟩
  · cases eng <;> simp [orchestratorCompress]
  · intro r hr
    simp only [completeItem, Option.some.injEq] at hr
    rw [← hr]
    cases m <;> simp
  · cases out <;> simp [completeItem]

/-- Witness for C2 at a concrete decode failure and a concrete rejection. -/
theorem compress_never_escapes_witness :
    (orchestratorCompress "x.png" 5 (.decodeError "corrupt header")).compressed_size = 0 ∧
    (orchestratorCompress "x.png" 5 (.decodeError "corrupt header")).error.isSome = true :=
  (compress_never_escapes "x.png" 5 (.decodeError "corrupt header")
      (mkFileItem ⟨"x.png", 5, "image/png"⟩) none (.thrown none)).1 (by decide)

/-- C3 counterexample: with `original_size = 1000` and an encoded output of
1001 bytes, the compressed size exceeds the original but the reported
rounded ratio is `round(100 * (1 - 1001/1000)) = round(-0.1) = 0`, which is
not negative — refuting "when compressed_size_bytes exceeds
original_size_bytes the ratio is negative". -/
theorem ratio_negative_counterexample :
    (orchestratorCompress "p.png" 1000
        (.encoded (List.replicate 1001 0) "png")).original_size <
      (orchestratorCompress "p.png" 1000
        (.encoded (List.replicate 1001 0) "png")).compressed_size ∧
    ¬ (orchestratorCompress "p.png" 1000
        (.encoded (List.replicate 1001 0) "png")).compression_ratio < 0 := by
  constructor
  · simp only [orchestratorCompress, List.length_replicate]
    omega
  · have hz : compressionRatioPercent 1000 1001 = 0 := by
      rw [compressionRatioPercent, if_neg (by omega)]
      rw [round_eq_zero_iff]
      constructor <;> norm_num
    simp only [orchestratorCompress, List.length_replicate]
    rw [hz]
    decide

/-- C3 amended: for every successful result, `compression_ratio` equals
`round(100 * (1 - compressed/original))`; when the compressed size exceeds
the original the ratio is non-positive and reported as-is (never clamped),
and it is strictly negative as soon as the size excess is more than half a
percent of the original. -/
theorem ratio_formula_unclamped (name fmt : String) (orig : Nat)
    (bytes : List Nat) (ho : 0 < orig) :
    (orchestratorCompress name orig (.encoded bytes fmt)).compression_ratio =
      round ((100 : ℚ) * (1 - (bytes.length : ℚ) / (orig : ℚ))) ∧
    (orig < bytes.length →
      (orchestratorCompress name orig (.encoded bytes fmt)).compression_ratio ≤ 0) ∧
    (orig < 200 * (bytes.length - orig) →
      (orchestratorCompress name orig (.encoded bytes fmt)).compression_ratio < 0) := by
  have hformula :
      (orchestratorCompress name orig (.encoded bytes fmt)).compression_ratio =
        round ((100 : ℚ) * (1 - (bytes.length : ℚ) / (orig : ℚ))) := by
    simp only [orchestratorCompress, compressionRatioPercent, if_neg (by omega : ¬ orig = 0)]
  have hopos : (0 : ℚ) < (orig : ℚ) := by exact_mod_cast ho
  refine ⟨hformula, ?_, ?_⟩
  · intro hlt
    rw [hformula, round_eq]
    have hcast : (orig : ℚ) < (bytes.length : ℚ) := by exact_mod_cast hlt
    have hdiv : (1 : ℚ) < (bytes.length : ℚ) / (orig : ℚ) :=
      (one_lt_div hopos).mpr hcast
    have hx : (100 : ℚ) * (1 - (bytes.length : ℚ) / (orig : ℚ)) + 1 / 2 ≤ 1 / 2 := by
      nlinarith
    calc ⌊(100 : ℚ) * (1 - (bytes.length : ℚ) / (orig : ℚ)) + 1 / 2⌋
        ≤ ⌊(1 : ℚ) / 2⌋ := Int.floor_le_floor hx
      _ = 0 := by norm_num
  · intro hlt
    have hle : orig ≤ bytes.length := by
      by_contra hcon
      rw [Nat.sub_eq_zero_of_le (by omega)] at hlt
      omega
    have hcast : (orig : ℚ) < 200 * ((bytes.length : ℚ) - (orig : ℚ)) := by
      have := hlt
      rw [← Nat.cast_lt (α := ℚ)] at this
      push_cast [Nat.cast_sub hle] at this
      linarith
    rw [hformula, round_eq]
    rw [show ((0 : ℤ)) = ((0 : ℤ) : ℤ) from rfl]
    rw [Int.floor_lt]
    have hdivlt : (201 : ℚ) / 2 < 100 * ((bytes.length : ℚ) / (orig : ℚ)) := by
      rw [← mul_div_assoc, lt_div_iff₀ hopos]
      linarith
    push_cast
    linarith

/-- Witness for C3's amended theorem: at original size 100 and 103 output
bytes the ratio is exactly `round(-3) = -3`, negative and unclamped. -/
theorem ratio_formula_unclamped_witness :
    (orchestratorCompress "q.png" 100
        (.encoded (List.replicate 103 0) "png")).compression_ratio < 0 :=
  (ratio_formula_unclamped "q.png" "png" 100 (List.replicate 103 0)
      (by decide)).2.2 (by decide)

/-- All completion updates store a result. -/
theorem completeItem_result_isSome (f : FileItem) (o : Outcome) :
    ((completeItem f o).result).isSome = true := by
  cases o <;> rfl

/-- C4: the compression ratio is computed with a division-by-zero guard: the
aggregate `totalRatio` of App.tsx is 0 when the total original size is 0 and
is computed from the actual sizes otherwise, and the (spec-modelled) per-item
ratio is 0 when `original_size_bytes = 0` and is the rounded formula on the
actual sizes otherwise. -/
theorem ratio_division_guard (files : List FileItem) (orig c : Nat) :
    (totalOriginal files = 0 → totalRatio files = 0) ∧
    (0 < totalOriginal files →
      totalRatio files =
        (1 - (totalCompressed files : ℚ) / (totalOriginal files : ℚ)) * 100) ∧
    compressionRatioPercent 0 c = 0 ∧
    (0 < orig → compressionRatioPercent orig c =
      round ((100 : ℚ) * (1 - (c : ℚ) / (orig : ℚ)))) := by
  refine ⟨?_, ?_, ?_, ?_⟩
  · intro h
    rw [totalRatio, if_neg (by omega)]
  · intro h
    rw [totalRatio, if_pos h]
  · rw [compressionRatioPercent, if_pos rfl]
  · intro h
    rw [compressionRatioPercent, if_neg (by omega)]

/-- Witness for C4 at the empty file list (total original size 0) and at a
zero-byte single input. -/
theorem ratio_division_guard_witness :
    totalRatio [] = 0 ∧ compressionRatioPercent 0 7 = 0 :=
  ⟨(ratio_division_guard [] 1 7).1 (by decide), (ratio_division_guard [] 1 7).2.2.1⟩

/-- C5: the batch size is capped at 20 requests: whatever reaches the batch
runner through the upload zone has at most `MAX_FILES = 20` elements; a drop
of exactly 20 acceptable files is handed over in full and fully processed
(every index gets a completed item carrying a result); a drop of 21 or more
acceptable files is rejected wholesale by the boundary, so the runner is
never invoked with it. -/
theorem batch_cap_twenty (files : List JsFile) (outs : List Outcome) :
    (∀ sel : List JsFile, uploadZoneSelect files = some sel →
      sel.length ≤ MAX_FILES) ∧
    ((∀ f ∈ files, filePasses f = true) → files.length = 20 →
      uploadZoneSelect files = some files) ∧
    ((∀ f ∈ files, filePasses f = true) → 21 ≤ files.length →
      uploadZoneSelect files = none) ∧
    (outs.length = files.length → files.length = 20 →
      (handleFilesSelected files outs).length = 20 ∧
      ∀ j : Nat, j < 20 → ∃ it : FileItem,
        (handleFilesSelected files outs)[j]? = some it ∧
        it.result.isSome = true) := by
  refine ⟨?_, ?_, ?_, ?_⟩
  · intro sel hsel
    rw [uploadZoneSelect] at hsel
    by_cases h0 : (dropzoneAccepted files).length = 0
    · rw [if_pos h0] at hsel
      exact Option.noConfusion hsel
    · rw [if_neg h0] at hsel
      injection hsel with he
      rw [← he, dropzoneAccepted]
      split_ifs with hcap
      · simp
      · omega
  · intro hall hlen
    have hfilter : files.filter filePasses = files := List.filter_eq_self.mpr hall
    have hA : ¬ (MAX_FILES < (files.filter filePasses).length) := by
      rw [hfilter, hlen]; decide
    have hacc : dropzoneAccepted files = files := by
      rw [dropzoneAccepted, if_neg hA, hfilter]
    have h0 : ¬ (files.length = 0) := by omega
    rw [uploadZoneSelect, hacc, if_neg h0]
  · intro hall hlen
    have hfilter : files.filter filePasses = files := List.filter_eq_self.mpr hall
    have hA : MAX_FILES < (files.filter filePasses).length := by
      rw [hfilter]; simp only [MAX_FILES]; omega
    have hacc : dropzoneAccepted files = [] := by
      rw [dropzoneAccepted, if_pos hA]
    rw [uploadZoneSelect, hacc]
    rfl
  · intro hlen h20
    constructor
    · rw [handleFilesSelected, batchLoop_snd_length, List.length_map, h20]
    · intro j hj
      have hjf : files[j]? = some (files.get ⟨j, by omega⟩) :=
        List.getElem?_eq_getElem (by omega)
      have hjo : outs[j]? = some (outs.get ⟨j, by omega⟩) :=
        List.getElem?_eq_getElem (by omega)
      refine ⟨completeItem (mkFileItem (files.get ⟨j, by omega⟩))
        (outs.get ⟨j, by omega⟩), ?_, completeItem_result_isSome _ _⟩
      rw [handleFilesSelected,
        batchLoop_snd_getElem outs _ 0 j (Nat.zero_le j) (by omega)]
      simp only [Nat.sub_zero, List.getElem?_map, hjf, hjo]
      rfl

/-- Witness for C5: a drop of 21 identical valid PNG files is rejected
(`none`), a drop of 20 is handed over whole. -/
theorem batch_cap_twenty_witness :
    uploadZoneSelect (List.replicate 21 ⟨"a.png", 100, "image/png"⟩) = none ∧
    uploadZoneSelect (List.replicate 20 ⟨"a.png", 100, "image/png"⟩) =
      some (List.replicate 20 ⟨"a.png", 100, "image/png"⟩) :=
  ⟨(batch_cap_twenty (List.replicate 21 ⟨"a.png", 100, "image/png"⟩) []).2.2.1
      (by decide) (by decide),
   (batch_cap_twenty (List.replicate 20 ⟨"a.png", 100, "image/png"⟩) []).2.1
      (by decide) (by decide)⟩

/-- Every event emitted by the loop started at index `i` concerns an item
index in `[i, i + outs.length)`. -/
theorem batchLoop_fst_idx_range (outs : List Outcome) (s : List FileItem)
    (i : Nat) : ∀ e ∈ (batchLoop s outs i).1,
      i ≤ e.idx ∧ e.idx < i + outs.length := by
  induction outs generalizing s i with
  | nil => intro e he; exact absurd he (List.not_mem_nil e)
  | cons o rest ih =>
    intro e he
    simp only [batchLoop, List.mem_cons] at he
    rcases he with rfl | rfl | he
    · simp [Event.idx]
    · simp [Event.idx]
    · have := ih _ (i + 1) e he
      simp only [List.length_cons]
      omega

/-- The emitted item indices are non-decreasing along the trace. -/
theorem batchLoop_fst_sorted (outs : List Outcome) (s : List FileItem)
    (i : Nat) :
    List.Pairwise (fun a b => Event.idx a ≤ Event.idx b) (batchLoop s outs i).1 := by
  induction outs generalizing s i with
  | nil => exact List.Pairwise.nil
  | cons o rest ih =>
    simp only [batchLoop]
    refine List.Pairwise.cons ?_ (List.Pairwise.cons ?_ (ih _ (i + 1)))
    · intro e he
      rcases List.mem_cons.mp he with rfl | he'
      · exact le_of_eq rfl
      · have hr := batchLoop_fst_idx_range rest _ (i + 1) e he'
        have h1 : Event.idx (Event.started i) = i := rfl
        omega
    · intro e he
      have hr := batchLoop_fst_idx_range rest _ (i + 1) e he
      have h1 : Event.idx (Event.completed i (outcomeStatus o) 100) = i := rfl
      omega

/-- The events concerning item `k` are exactly one `started k` followed by one
`completed k` carrying the outcome's status at progress 100. -/
theorem batchLoop_fst_filter_idx (outs : List Outcome) (s : List FileItem)
    (i k : Nat) (o : Outcome) (hk : i ≤ k) (ho : outs[k - i]? = some o) :
    ((batchLoop s outs i).1).filter (fun e => Event.idx e == k) =
      [.started k, .completed k (outcomeStatus o) 100] := by
  induction outs generalizing s i with
  | nil => exact absurd ho (by simp)
  | cons o' rest ih =>
    simp only [batchLoop]
    rcases Nat.eq_or_lt_of_le hk with heq | hlt
    · subst heq
      rw [Nat.sub_self, List.getElem?_cons_zero, Option.some.injEq] at ho
      subst ho
      have htail : ((batchLoop
          (modifyIdx (modifyIdx s i setCompressing) i fun f => completeItem f o')
          rest (i + 1)).1).filter (fun e => Event.idx e == i) = [] := by
        rw [List.filter_eq_nil_iff]
        intro e he
        have hr := batchLoop_fst_idx_range rest _ (i + 1) e he
        simp only [beq_iff_eq]
        omega
      simp only [List.filter_cons]
      have hp1 : ((fun e => Event.idx e == i) (Event.started i)) = true := by
        simp [Event.idx]
      have hp2 : ((fun e => Event.idx e == i)
          (Event.completed i (outcomeStatus o') 100)) = true := by
        simp [Event.idx]
      rw [if_pos hp1, if_pos hp2, htail]
    · have hsub : k - i = (k - (i + 1)) + 1 := by omega
      rw [hsub, List.getElem?_cons_succ] at ho
      have hne : ¬ (((fun e => Event.idx e == k) (Event.started i)) = true) := by
        simp only [Event.idx, beq_iff_eq]
        omega
      have hne' : ¬ (((fun e => Event.idx e == k)
          (Event.completed i (outcomeStatus o') 100)) = true) := by
        simp only [Event.idx, beq_iff_eq]
        omega
      simp only [List.filter_cons]
      rw [if_neg hne, if_neg hne']
      exact ih _ (i + 1) (by omega) ho

/-- C6: batch execution is sequential with per-item progress emission: along
the stream of `setFiles` emissions the item indices never decrease (so every
signal of item `k` — in particular its completion — precedes every signal of
item `k+1`, i.e. each request is processed to completion before the next
begins), and for each request `k` the stream contains exactly a start signal
followed by one completion signal carrying `k`, the item's resulting status
and progress 100 — an incremental per-item stream, never a single
all-or-nothing return. -/
theorem batch_sequential_progress (selected : List JsFile) (outs : List Outcome) :
    List.Pairwise (fun a b => Event.idx a ≤ Event.idx b)
      (batchEvents selected outs) ∧
    ∀ (k : Nat) (o : Outcome), outs[k]? = some o →
      (batchEvents selected outs).filter (fun e => Event.idx e == k) =
        [.started k, .completed k (outcomeStatus o) 100] := by
  constructor
  · exact batchLoop_fst_sorted outs _ 0
  · intro k o ho
    exact batchLoop_fst_filter_idx outs _ 0 k o (Nat.zero_le k)
      (by rwa [Nat.sub_zero])

/-- Witness for C6 at a concrete two-request batch whose first request
succeeds and whose second is rejected in transport. -/
theorem batch_sequential_progress_witness :
    (batchEvents
        [⟨"a.png", 10, "image/png"⟩, ⟨"b.png", 20, "image/png"⟩]
        [.ok ⟨"a.png", 10, 4, 60, "d", true, none, "png"⟩,
         .thrown (some "network error")]).filter
        (fun e => Event.idx e == 1) =
      [.started 1, .completed 1 (outcomeStatus (.thrown (some "network error"))) 100] :=
  (batch_sequential_progress
      [⟨"a.png", 10, "image/png"⟩, ⟨"b.png", 20, "image/png"⟩]
      [.ok ⟨"a.png", 10, 4, 60, "d", true, none, "png"⟩,
       .thrown (some "network error")]).2 1 _ (by decide)

/-- C7: the lossless post-optimizer never increases output size: for every
lossy byte string its result is at most as large as the input, and whenever
the underlying optimizer's raw output is greater than or equal to the input
in size, that output is discarded and the input bytes are kept. -/
theorem lossless_post_optimize_never_larger
    (rawOpt : List Nat → Option (List Nat)) (input : List Nat) :
    (losslessPostOptimize rawOpt input).length ≤ input.length ∧
    ∀ out : List Nat, rawOpt input = some out → input.length ≤ out.length →
      losslessPostOptimize rawOpt input = input := by
  cases h : rawOpt input with
  | none =>
    constructor
    · simp [losslessPostOptimize, h]
    · intro out hout
      exact absurd hout (by simp)
  | some out =>
    constructor
    · simp only [losslessPostOptimize, h]
      split_ifs with hif
      · exact le_refl _
      · omega
    · intro out' hout' hle
      rw [Option.some.injEq] at hout'
      subst hout'
      simp only [losslessPostOptimize, h, if_pos hle]

/-- Witness for C7: a raw optimizer that "optimizes" a 2-byte input into 3
bytes is discarded and the input kept. -/
theorem lossless_post_optimize_never_larger_witness :
    losslessPostOptimize (fun _ => some [1, 2, 3]) [9, 9] = [9, 9] :=
  (lossless_post_optimize_never_larger (fun _ => some [1, 2, 3]) [9, 9]).2
    [1, 2, 3] rfl (by decide)

/-- C8: quantization fallback safety: the palette-raster compress path always
returns `success = true` with no error — in particular when the primary
quantization backend is unavailable or fails, in which case the result is
exactly the one produced by the guaranteed-available fallback quantizer; the
backend failure is never surfaced to the caller. -/
theorem quantization_fallback_safe (env : QuantEnv) (name : String)
    (inputSize : Nat) (img : RasterImage) (maxColors : Nat)
    (encode : IndexedImage → List Nat) :
    (compressPalette env name inputSize img maxColors encode).success = true ∧
    (compressPalette env name inputSize img maxColors encode).error = none ∧
    (env.primary img maxColors = none →
      quantize env img maxColors = env.fallback img maxColors ∧
      compressPalette env name inputSize img maxColors encode =
        compressPalette ⟨fun _ _ => none, env.fallback⟩ name inputSize img
          maxColors encode) := by
  refine ⟨rfl, rfl, ?_⟩
  intro h
  constructor
  · rw [quantize, h]
  · simp only [compressPalette, quantize, h]

/-- Witness for C8: a concrete environment whose primary backend always
fails still compresses with `success = true` via the fallback. -/
theorem quantization_fallback_safe_witness :
    (compressPalette ⟨fun _ _ => none, fun _ _ => ⟨[0], [(0, 0, 0)]⟩⟩
        "p.png" 10 [(1, 2, 3)] 256 (fun _ => [7, 7])).success = true ∧
    quantize ⟨fun _ _ => none, fun _ _ => ⟨[0], [(0, 0, 0)]⟩⟩ [(1, 2, 3)] 256 =
      (⟨fun _ _ => none, fun _ _ => ⟨[0], [(0, 0, 0)]⟩⟩ : QuantEnv).fallback
        [(1, 2, 3)] 256 :=
  ⟨(quantization_fallback_safe ⟨fun _ _ => none, fun _ _ => ⟨[0], [(0, 0, 0)]⟩⟩
      "p.png" 10 [(1, 2, 3)] 256 (fun _ => [7, 7])).1,
   ((quantization_fallback_safe ⟨fun _ _ => none, fun _ _ => ⟨[0], [(0, 0, 0)]⟩⟩
      "p.png" 10 [(1, 2, 3)] 256 (fun _ => [7, 7])).2.2 rfl).1⟩

/-- C9 counterexample: the upload zone does not accept "only MIME types
image/png, image/jpeg, image/webp": react-dropzone's attr-accept also accepts
by filename extension, so a file named `x.png` whose MIME type is
`image/avif` is handed to the compression pipeline even though its MIME type
is not among the accepted ones. -/
theorem upload_boundary_mime_counterexample :
    uploadZoneSelect [⟨"x.png", 100, "image/avif"⟩] =
      some [⟨"x.png", 100, "image/avif"⟩] ∧
    (⟨"x.png", 100, "image/avif"⟩ : JsFile).mime ∉ ACCEPTED_TYPES := by
  constructor
  · decide
  · decide

/-- C9 amended: every file handed to the compression pipeline went through
the upload zone's filter, which admits a file only if its MIME type is one of
image/png, image/jpeg, image/webp OR its lowercased filename ends in .png,
.jpg, .jpeg or .webp, and never a file larger than 10 * 1024 * 1024 bytes —
so an AVIF input can reach the core only under an accepted filename
extension, and no file over 10 MiB ever does. -/
theorem upload_boundary_filter_amended (files sel : List JsFile) (f : JsFile)
    (hsel : uploadZoneSelect files = some sel) (hmem : f ∈ sel) :
    (f.mime ∈ ACCEPTED_TYPES ∨
      (ACCEPTED_EXTS.any (fun e => extMatches e f.name)) = true) ∧
    f.size ≤ 10 * 1024 * 1024 := by
  rw [uploadZoneSelect] at hsel
  by_cases h0 : (dropzoneAccepted files).length = 0
  · rw [if_pos h0] at hsel
    exact Option.noConfusion hsel
  · rw [if_neg h0] at hsel
    injection hsel with he
    rw [← he, dropzoneAccepted] at hmem
    split_ifs at hmem with hcap
    · exact absurd hmem (List.not_mem_nil f)
    · have hpass : filePasses f = true := (List.mem_filter.mp hmem).2
      rw [filePasses, Bool.and_eq_true, Bool.or_eq_true, decide_eq_true_iff,
        decide_eq_true_iff] at hpass
      exact ⟨hpass.1, hpass.2⟩

/-- Witness for C9's amended theorem: a concrete drop of one valid PNG next
to an AVIF-named AVIF file and an oversized JPEG — the AVIF and oversized
files are rejected, and the selected PNG is within the amended contract. -/
theorem upload_boundary_filter_amended_witness :
    ((⟨"a.png", 100, "image/png"⟩ : JsFile).mime ∈ ACCEPTED_TYPES ∨
      (ACCEPTED_EXTS.any
        (fun e => extMatches e (⟨"a.png", 100, "image/png"⟩ : JsFile).name)) = true) ∧
    (⟨"a.png", 100, "image/png"⟩ : JsFile).size ≤ 10 * 1024 * 1024 :=
  upload_boundary_filter_amended
    [⟨"a.png", 100, "image/png"⟩, ⟨"b.avif", 100, "image/avif"⟩,
     ⟨"c.jpg", 11 * 1024 * 1024, "image/jpeg"⟩]
    [⟨"a.png", 100, "image/png"⟩] ⟨"a.png", 100, "image/png"⟩
    (by decide) (by decide)

/-- Each single update App.tsx performs on an item preserves the progress
bounds. -/
theorem itemStep_preserves (f f' : FileItem) (hstep : ItemStep f f')
    (ih : (0 ≤ f.progress ∧ f.progress ≤ 100) ∧
      (f.status = .compressing → f.progress ≤ 90)) :
    (0 ≤ f'.progress ∧ f'.progress ≤ 100) ∧
    (f'.status = .compressing → f'.progress ≤ 90) := by
  cases hstep with
  | tick id =>
    rw [tickItem]
    split_ifs with hc
    · dsimp only
      obtain ⟨⟨h0, h100⟩, h90⟩ := ih
      refine ⟨⟨?_, ?_⟩, fun _ => min_le_left _ _⟩
      · have h1 : (1 : ℚ) ≤ max 1 ((90 - f.progress) / 10) := le_max_left _ _
        have h2 : (0 : ℚ) ≤ f.progress + max 1 ((90 - f.progress) / 10) := by
          linarith
        exact le_min (by norm_num) h2
      · have hm : min (90 : ℚ) (f.progress + max 1 ((90 - f.progress) / 10)) ≤ 90 :=
          min_le_left _ _
        linarith
    · exact ih
  | start =>
    exact ⟨⟨by norm_num [setCompressing], by norm_num [setCompressing]⟩,
      fun _ => by norm_num [setCompressing]⟩
  | complete g o =>
    cases o with
    | ok r =>
      refine ⟨⟨by norm_num [completeItem], by norm_num [completeItem]⟩, ?_⟩
      intro hst
      simp only [completeItem] at hst
      cases hr : r.success <;> rw [hr] at hst <;> simp at hst
    | thrown m =>
      refine ⟨⟨by norm_num [completeItem], by norm_num [completeItem]⟩, ?_⟩
      intro hst
      simp only [completeItem] at hst
      exact FileStatus.noConfusion hst

/-- C10: per-item progress invariant: throughout every sequence of updates an
item can undergo (creation, start of compression, simulated-progress ticks,
completion) the progress value stays in `[0, 100]` and, while the status is
`'compressing'`, the timer-driven simulated progress never exceeds 90;
moreover the completion update sets progress to exactly 100 in the very same
update that moves the status to `'done'` or `'error'`. -/
theorem item_progress_invariant :
    (∀ f : FileItem, ReachableItem f →
      (0 ≤ f.progress ∧ f.progress ≤ 100) ∧
      (f.status = .compressing → f.progress ≤ 90)) ∧
    (∀ (f : FileItem) (o : Outcome),
      (completeItem f o).progress = 100 ∧
      ((completeItem f o).status = .done ∨ (completeItem f o).status = .error)) := by
  constructor
  · intro f hf
    induction hf with
    | init jf =>
      refine ⟨⟨le_refl 0, by norm_num [mkFileItem]⟩, ?_⟩
      intro hst
      exact absurd hst (by simp [mkFileItem])
    | step hre hstep ih => exact itemStep_preserves _ _ hstep ih
  · intro f o
    cases o with
    | ok r =>
      refine ⟨rfl, ?_⟩
      cases hr : r.success
      · right
        simp [completeItem, hr]
      · left
        simp [completeItem, hr]
    | thrown m => exact ⟨rfl, Or.inr rfl⟩

/-- Witness for C10: a concrete reachable state — a fresh pending item that
started compressing and received one progress tick — satisfies the bounds. -/
theorem item_progress_invariant_witness :
    (0 ≤ (tickItem "a.png" (setCompressing (mkFileItem ⟨"a.png", 3, "image/png"⟩))).progress ∧
      (tickItem "a.png" (setCompressing (mkFileItem ⟨"a.png", 3, "image/png"⟩))).progress ≤ 100) ∧
    ((tickItem "a.png" (setCompressing (mkFileItem ⟨"a.png", 3, "image/png"⟩))).status =
        .compressing →
      (tickItem "a.png" (setCompressing (mkFileItem ⟨"a.png", 3, "image/png"⟩))).progress ≤ 90) :=
  item_progress_invariant.1 _
    (.step (.step (.init ⟨"a.png", 3, "image/png"⟩)
      (.start (mkFileItem ⟨"a.png", 3, "image/png"⟩)))
      (.tick "a.png" (setCompressing (mkFileItem ⟨"a.png", 3, "image/png"⟩))))

end SnapImg
